import Mathlib

/-!
Shallow embedding of the animated numeric counter widget
(`src/components/AnimatedNumber.tsx`, the canonical hooks-based variant:
`useContainerWidth`, `useAnimation`, `useAnimationQueue` and the
`AnimatedNumber` component).  The widget keeps a list of rendered
digit visuals, a single-slot animation queue and an `isAnimating` flag;
scheduled browser callbacks (the nested `requestAnimationFrame` promotion
and the `setTimeout` completion) are modelled as explicit pending-callback
slots consumed by separate steps of a transition relation.  Container
width writes, transition starts/ends and completion notifications are
recorded in an event trace.
-/

namespace AnimatedNumber

/-- Slide direction of a transition: the source strings "up" / "down". -/
inductive Dir where
  | up
  | down
  deriving DecidableEq, Repr

/-- `AnimationQueueItem`: `{ value: number; direction: "up" | "down" }`. -/
structure QItem where
  value : Int
  direction : Dir
  deriving DecidableEq, Repr

/-- `AnimatedDigitProps`: one rendered digit visual,
`{ value, direction: "up" | "down" | null, isVisible, className }`. -/
structure DigitVisual where
  value : Int
  direction : Option Dir
  isVisible : Bool
  className : String
  deriving DecidableEq, Repr

/-- Observable events: a container-width write (`style.width = …ch`),
a transition start (`startAnimation`), the completion cleanup firing,
and the `onAnimationComplete` notification. -/
inductive Ev where
  | resize (w : Nat)
  | animStart (v : Int) (d : Dir)
  | animEnd (v : Int)
  | callback
  deriving DecidableEq, Repr

/-- `ANIMATION_CONFIG.STYLES.VISIBLE = "counter-number visible"`. -/
def styleVisible : String := "counter-number visible"

/-- `slideOutClass` chosen from the direction (source line
`nextItem.direction === UP ? SLIDE_OUT_UP : SLIDE_OUT_DOWN`). -/
def slideOutClassOf : Dir → String
  | Dir.up => "slide-out-up"
  | Dir.down => "slide-out-down"

/-- `slideInClass` chosen from the direction (source line
`nextItem.direction === UP ? SLIDE_IN_FROM_DOWN : SLIDE_IN_FROM_UP`). -/
def slideInClassOf : Dir → String
  | Dir.up => "slide-in-from-down"
  | Dir.down => "slide-in-from-up"

/-- Decimal digit count of a natural number, embedded as the length of
its decimal character representation (`Math.abs(value).toString().length`
in the source; `Nat.toDigits 10` is the core decimal printer, with
`Nat.toDigits 10 0 = ['0']`). -/
def digitCount (n : Nat) : Nat := (Nat.toDigits 10 n).length

/-- `updateContainerWidth`, the width calculator:
`digits = Math.abs(value).toString().length + (value < 0 ? 1 : 0)`. -/
def widthOf (v : Int) : Nat := digitCount v.natAbs + (if v < 0 then 1 else 0)

/-- Length of the signed decimal string `String(value)` (a leading sign
character followed by the digits of the absolute value), as used by
`updateContainerWidthBeforeDigitAnimation`. -/
def intStrLen (v : Int) : Nat := (if v < 0 then 1 else 0) + digitCount v.natAbs

/-- The widget state: rendered digit visuals, the `isAnimating` flag, the
animation queue, the two scheduled-callback slots (the nested
`requestAnimationFrame` promotion and the `setTimeout` completion, both
carrying the queue item of the transition in flight) and the event trace. -/
structure EngineState where
  digits : List DigitVisual
  isAnimating : Bool
  queue : List QItem
  pendingPromote : Option QItem
  pendingComplete : Option QItem
  trace : List Ev
  deriving DecidableEq, Repr

/-- Initial state of the component: a single visible digit for the initial
value (`useState([{ value, direction: null, isVisible: true, className:
VISIBLE }])`), not animating, empty queue, nothing scheduled. -/
def initState (v : Int) : EngineState :=
  ⟨[⟨v, none, true, styleVisible⟩], false, [], none, none, []⟩

/-- `animatedDigits.find((num) => num.isVisible)`. -/
def findVisible (ds : List DigitVisual) : Option DigitVisual :=
  ds.find? (fun d => d.isVisible)

/-- `newValue > baseline ? "up" : "down"`. -/
def dirFor (newValue baseline : Int) : Dir :=
  if newValue > baseline then Dir.up else Dir.down

/-- The `setAnimationQueue` updater inside `queueDigitChange`: an empty
queue receives the new item; otherwise the last held item is replaced,
the direction recomputed against the replaced item's value, unless the
new value equals the held target, in which case the queue is unchanged. -/
def pushQueue (newValue : Int) (direction : Dir) :
    List QItem → List QItem
  | [] => [⟨newValue, direction⟩]
  | q :: qs =>
    let lastQueued := (q :: qs).getLast (List.cons_ne_nil q qs)
    if newValue = lastQueued.value then q :: qs
    else (q :: qs).dropLast ++ [⟨newValue, dirFor newValue lastQueued.value⟩]

/-- `queueDigitChange(newValue)`: returns unless a visible digit exists;
a value equal to the visible one is a no-op; otherwise the queue is
updated through `pushQueue` with the direction computed against the
currently visible value. -/
def queueDigitChange (newValue : Int) (s : EngineState) : EngineState :=
  match findVisible s.digits with
  | none => s
  | some currentVisible =>
    if newValue = currentVisible.value then s
    else
      let direction := dirFor newValue currentVisible.value
      { s with queue := pushQueue newValue direction s.queue }

/-- The digit of a transition target freshly appended by `startAnimation`:
not yet visible, carrying the slide-in class for the direction. -/
def enteringDigit (it : QItem) : DigitVisual :=
  ⟨it.value, some it.direction, false, "counter-number " ++ slideInClassOf it.direction⟩

/-- The `setAnimatedDigits` updater of `startAnimation`: every previous
digit is marked not visible with the slide-out class, and the entering
digit for the target is appended. -/
def startAnimationDigits (it : QItem) (prev : List DigitVisual) : List DigitVisual :=
  (prev.map (fun num =>
    { num with
      isVisible := false
      className := "counter-number " ++ slideOutClassOf it.direction })) ++ [enteringDigit it]

/-- `processAnimationQueue`: returns when animating or the queue is empty;
otherwise pops the head item first, then returns if no visible digit
exists or the popped target equals the visible value; otherwise runs
`startAnimation` and schedules both the promotion (nested
`requestAnimationFrame`) and the completion (`setTimeout`, any previous
timer cleared) for the popped item. -/
def processAnimationQueue (s : EngineState) : EngineState :=
  if s.isAnimating then s
  else
    match s.queue with
    | [] => s
    | nextItem :: remainingItems =>
      let s1 : EngineState := { s with queue := remainingItems }
      match findVisible s.digits with
      | none => s1
      | some currentVisible =>
        if nextItem.value = currentVisible.value then s1
        else
          { s1 with
            digits := startAnimationDigits nextItem s.digits
            isAnimating := true
            pendingPromote := some nextItem
            pendingComplete := some nextItem
            trace := s.trace ++ [Ev.animStart nextItem.value nextItem.direction] }

/-- The digit promoted to steady state by `updateAnimationClasses`. -/
def promotedDigit (it : QItem) : DigitVisual :=
  ⟨it.value, some it.direction, true, styleVisible⟩

/-- The `setAnimatedDigits` updater inside `updateAnimationClasses`:
digits matching the in-flight item on value and direction become visible
with the steady-state class. -/
def promoteDigits (it : QItem) (prev : List DigitVisual) : List DigitVisual :=
  prev.map (fun num =>
    if num.value = it.value ∧ num.direction = some it.direction then
      { num with isVisible := true, className := styleVisible }
    else num)

/-- Firing of the scheduled nested-`requestAnimationFrame` promotion. -/
def runPromote (s : EngineState) : EngineState :=
  match s.pendingPromote with
  | none => s
  | some it => { s with digits := promoteDigits it s.digits, pendingPromote := none }

/-- The completion pruning of `completeAnimation`:
`prev.filter((num) => num.isVisible || num.value === nextItem.value)`. -/
def completeFilter (it : QItem) (prev : List DigitVisual) : List DigitVisual :=
  prev.filter (fun num => num.isVisible || num.value == it.value)

/-- Firing of the scheduled `setTimeout` completion: prune the exited
digits, write the container width for the target, clear `isAnimating`
and invoke `onAnimationComplete`. -/
def runComplete (s : EngineState) : EngineState :=
  match s.pendingComplete with
  | none => s
  | some it =>
    { s with
      digits := completeFilter it s.digits
      isAnimating := false
      pendingComplete := none
      trace := s.trace ++ [Ev.animEnd it.value, Ev.resize (widthOf it.value), Ev.callback] }

/-- `updateContainerWidthBeforeDigitAnimation(value, nextValue)`: when the
signed decimal string of the next value is at least as long as that of the
current one, the container width is written before the transition. -/
def updateContainerWidthBeforeDigitAnimation (value nextValue : Int)
    (s : EngineState) : EngineState :=
  if intStrLen value ≤ intStrLen nextValue then
    { s with trace := s.trace ++ [Ev.resize (widthOf nextValue)] }
  else s

/-- The value-change effect of the component: always applies the
width-before policy; on an actual change, either the synchronous
`disableAnimation` path (width write, single visible digit, completion
notification) or `queueDigitChange`. -/
def valueChange (disableAnimationFlag : Bool) (prevValue value : Int)
    (s : EngineState) : EngineState :=
  let s1 := updateContainerWidthBeforeDigitAnimation prevValue value s
  if prevValue = value then s1
  else if disableAnimationFlag then
    { s1 with
      digits := [⟨value, none, true, styleVisible⟩]
      trace := s1.trace ++ [Ev.resize (widthOf value), Ev.callback] }
  else queueDigitChange value s1

/-- One full animated transition driven from a value change: queue the
change, drain the queue, fire the promotion, fire the completion. -/
def transitionRun (a b : Int) (s : EngineState) : EngineState :=
  runComplete (runPromote (processAnimationQueue (valueChange false a b s)))

/-- States reachable from the freshly mounted component by enqueuing
values and firing the drain / promotion / completion steps in any order
(each step is a no-op when its guard fails or nothing is scheduled). -/
inductive Reachable (v : Int) : EngineState → Prop where
  | init : Reachable v (initState v)
  | enqueue (w : Int) {s : EngineState} :
      Reachable v s → Reachable v (queueDigitChange w s)
  | drain {s : EngineState} :
      Reachable v s → Reachable v (processAnimationQueue s)
  | promote {s : EngineState} :
      Reachable v s → Reachable v (runPromote s)
  | complete {s : EngineState} :
      Reachable v s → Reachable v (runComplete s)

/-- Settled state per the glossary: no transition in flight — the engine
is not animating and no promotion or completion callback is scheduled. -/
def Settled (s : EngineState) : Prop :=
  s.isAnimating = false ∧ s.pendingPromote = none ∧ s.pendingComplete = none

instance (s : EngineState) : Decidable (Settled s) := by
  unfold Settled; infer_instance

/-- Number of digit visuals currently marked visible. -/
def countVisible (ds : List DigitVisual) : Nat :=
  (ds.filter (fun d => d.isVisible)).length

/-- A digit visual carrying one of the two slide-out (exiting) classes. -/
def isExiting (d : DigitVisual) : Bool :=
  d.className == "counter-number slide-out-up" ||
    d.className == "counter-number slide-out-down"

/-- A digit visual carrying one of the two slide-in (entering) classes. -/
def isEntering (d : DigitVisual) : Bool :=
  d.className == "counter-number slide-in-from-down" ||
    d.className == "counter-number slide-in-from-up"

/-- Steady state: one visible digit, nothing in flight. -/
def Phase0 (s : EngineState) : Prop :=
  s.isAnimating = false ∧ s.pendingPromote = none ∧ s.pendingComplete = none ∧
    ∃ d : DigitVisual, s.digits = [d] ∧ d.isVisible = true

/-- Transition started, promotion and completion both scheduled: the
outgoing digit is hidden with the slide-out class, the entering digit for
the in-flight item is appended, neither is visible. -/
def Phase1 (s : EngineState) : Prop :=
  ∃ (it : QItem) (old : DigitVisual),
    s.isAnimating = true ∧ s.pendingPromote = some it ∧
      s.pendingComplete = some it ∧ s.digits = [old, enteringDigit it] ∧
      old.isVisible = false ∧
      old.className = "counter-number " ++ slideOutClassOf it.direction ∧
      old.value ≠ it.value

/-- Promotion fired, completion still scheduled: the entering digit has
been promoted to the sole visible one, the outgoing digit remains. -/
def Phase2 (s : EngineState) : Prop :=
  ∃ (it : QItem) (old : DigitVisual),
    s.isAnimating = true ∧ s.pendingPromote = none ∧
      s.pendingComplete = some it ∧ s.digits = [old, promotedDigit it] ∧
      old.isVisible = false ∧ old.value ≠ it.value

/-- Completion fired before the promotion (possible only when the timer
beats the nested animation frames): the entering digit alone remains,
not yet visible, with the promotion still scheduled. -/
def Phase3 (s : EngineState) : Prop :=
  ∃ it : QItem,
    s.isAnimating = false ∧ s.pendingPromote = some it ∧
      s.pendingComplete = none ∧ s.digits = [enteringDigit it]

/-- The shape of the digit list and callback slots in any reachable state. -/
def PhaseDisj (s : EngineState) : Prop :=
  Phase0 s ∨ Phase1 s ∨ Phase2 s ∨ Phase3 s

/-- The inductive invariant: single-slot queue plus the phase shapes. -/
def Inv (s : EngineState) : Prop :=
  s.queue.length ≤ 1 ∧ PhaseDisj s

/-- The decimal printer emits exactly one character per decimal digit:
the length of `Nat.toDigitsCore 10 f n []` is `Nat.log 10 n + 1`
whenever the fuel exceeds `n`. -/
lemma toDigitsCore_nil_length (f : Nat) :
    ∀ n : Nat, n < f → (Nat.toDigitsCore 10 f n []).length = Nat.log 10 n + 1 := by
  induction f with
  | zero => intro n hn; exact absurd hn (Nat.not_lt_zero n)
  | succ f ih =>
    intro n hn
    by_cases h10 : n / 10 = 0
    · have hlt : n < 10 := by omega
      simp only [Nat.toDigitsCore, h10, if_true, List.length]
      rw [Nat.log_of_lt hlt]
    · have hge : 10 ≤ n := by
        rcases Nat.lt_or_ge n 10 with h | h
        · exact absurd (by omega) h10
        · exact h
      have hdiv_lt : n / 10 < n := Nat.div_lt_self (by omega) (by norm_num)
      simp only [Nat.toDigitsCore, h10, if_false]
      rw [Nat.toDigitsCore_lens_eq]
      rw [ih (n / 10) (by omega)]
      have hd := Nat.log_div_base 10 n
      have hp := @Nat.log_pos 10 n (by norm_num) hge
      omega

/-- The decimal digit count of `n` is `Nat.log 10 n + 1` (also for `0`,
whose representation is the single character string of one zero digit). -/
lemma digitCount_eq_log (n : Nat) : digitCount n = Nat.log 10 n + 1 := by
  have h := toDigitsCore_nil_length (n + 1) n (Nat.lt_succ_self n)
  simpa [digitCount, Nat.toDigits] using h

/-- The signed decimal string length coincides with the computed width. -/
lemma intStrLen_eq_widthOf (v : Int) : intStrLen v = widthOf v := by
  simp [intStrLen, widthOf, Nat.add_comm]

/-- The phase shapes only depend on the digits and the engine flags. -/
lemma phaseDisj_of_fields (s t : EngineState) (hd : t.digits = s.digits)
    (ha : t.isAnimating = s.isAnimating) (hp : t.pendingPromote = s.pendingPromote)
    (hc : t.pendingComplete = s.pendingComplete) (h : PhaseDisj s) : PhaseDisj t := by
  unfold PhaseDisj Phase0 Phase1 Phase2 Phase3 at h ⊢
  rw [hd, ha, hp, hc]
  exact h

/-- Enqueuing never changes the rendered digits. -/
lemma queueDigitChange_digits (v : Int) (s : EngineState) :
    (queueDigitChange v s).digits = s.digits := by
  unfold queueDigitChange
  cases findVisible s.digits with
  | none => rfl
  | some d => by_cases h : v = d.value <;> simp [h]

/-- Enqueuing never changes the `isAnimating` flag. -/
lemma queueDigitChange_isAnimating (v : Int) (s : EngineState) :
    (queueDigitChange v s).isAnimating = s.isAnimating := by
  unfold queueDigitChange
  cases findVisible s.digits with
  | none => rfl
  | some d => by_cases h : v = d.value <;> simp [h]

/-- Enqueuing never touches the scheduled promotion. -/
lemma queueDigitChange_pendingPromote (v : Int) (s : EngineState) :
    (queueDigitChange v s).pendingPromote = s.pendingPromote := by
  unfold queueDigitChange
  cases findVisible s.digits with
  | none => rfl
  | some d => by_cases h : v = d.value <;> simp [h]

/-- Enqueuing never touches the scheduled completion. -/
lemma queueDigitChange_pendingComplete (v : Int) (s : EngineState) :
    (queueDigitChange v s).pendingComplete = s.pendingComplete := by
  unfold queueDigitChange
  cases findVisible s.digits with
  | none => rfl
  | some d => by_cases h : v = d.value <;> simp [h]

/-- Enqueuing emits no events. -/
lemma queueDigitChange_trace (v : Int) (s : EngineState) :
    (queueDigitChange v s).trace = s.trace := by
  unfold queueDigitChange
  cases findVisible s.digits with
  | none => rfl
  | some d => by_cases h : v = d.value <;> simp [h]

/-- The queue updater keeps the queue at one held item at most. -/
lemma pushQueue_length (v : Int) (d : Dir) (q : List QItem)
    (h : q.length ≤ 1) : (pushQueue v d q).length ≤ 1 := by
  match q with
  | [] => simp [pushQueue]
  | [x] =>
    simp only [pushQueue]
    split <;> simp
  | x :: y :: ys => simp at h

/-- Enqueuing keeps the queue at one held item at most. -/
lemma queueDigitChange_queue_length (v : Int) (s : EngineState)
    (h : s.queue.length ≤ 1) : (queueDigitChange v s).queue.length ≤ 1 := by
  unfold queueDigitChange
  cases findVisible s.digits with
  | none => exact h
  | some d =>
    by_cases hv : v = d.value
    · simp [hv]; exact h
    · simp [hv]
      exact pushQueue_length v (dirFor v d.value) s.queue h

/-- The invariant holds in the initial state. -/
lemma inv_init (v : Int) : Inv (initState v) := by
  refine ⟨by simp [initState], Or.inl ?_⟩
  exact ⟨rfl, rfl, rfl, ⟨v, none, true, styleVisible⟩, rfl, rfl⟩

/-- The invariant is preserved by enqueuing. -/
lemma inv_enqueue (v : Int) (s : EngineState) (h : Inv s) :
    Inv (queueDigitChange v s) := by
  obtain ⟨hq, hph⟩ := h
  refine ⟨queueDigitChange_queue_length v s hq, ?_⟩
  exact phaseDisj_of_fields s _ (queueDigitChange_digits v s)
    (queueDigitChange_isAnimating v s) (queueDigitChange_pendingPromote v s)
    (queueDigitChange_pendingComplete v s) hph

/-- A singleton list whose digit is visible is found visible. -/
lemma findVisible_single_true (d : DigitVisual) (h : d.isVisible = true) :
    findVisible [d] = some d := by
  simp [findVisible, List.find?_cons_of_pos, h]

/-- The freshly appended entering digit alone is not found visible. -/
lemma findVisible_entering (it : QItem) :
    findVisible [enteringDigit it] = none := by
  simp [findVisible, enteringDigit]

/-- Promotion leaves the outgoing digit alone and promotes the entering
digit of the in-flight item. -/
lemma promoteDigits_pair (it : QItem) (old : DigitVisual)
    (h : old.value ≠ it.value) :
    promoteDigits it [old, enteringDigit it] = [old, promotedDigit it] := by
  simp [promoteDigits, enteringDigit, promotedDigit, h]

/-- Promotion of the entering digit alone. -/
lemma promoteDigits_single (it : QItem) :
    promoteDigits it [enteringDigit it] = [promotedDigit it] := by
  simp [promoteDigits, enteringDigit, promotedDigit]

/-- Completion pruning drops the hidden outgoing digit and keeps the
not-yet-promoted entering digit. -/
lemma completeFilter_pair_entering (it : QItem) (old : DigitVisual)
    (hv : old.isVisible = false) (h : old.value ≠ it.value) :
    completeFilter it [old, enteringDigit it] = [enteringDigit it] := by
  simp [completeFilter, enteringDigit, hv, h]

/-- Completion pruning drops the hidden outgoing digit and keeps the
promoted digit. -/
lemma completeFilter_pair_promoted (it : QItem) (old : DigitVisual)
    (hv : old.isVisible = false) (h : old.value ≠ it.value) :
    completeFilter it [old, promotedDigit it] = [promotedDigit it] := by
  simp [completeFilter, promotedDigit, hv, h]

/-- Firing an unscheduled promotion is a no-op. -/
lemma runPromote_none (s : EngineState) (h : s.pendingPromote = none) :
    runPromote s = s := by
  unfold runPromote
  rw [h]

/-- Characterization of a scheduled promotion firing. -/
lemma runPromote_some (s : EngineState) (it : QItem)
    (h : s.pendingPromote = some it) :
    runPromote s =
      { s with digits := promoteDigits it s.digits, pendingPromote := none } := by
  unfold runPromote
  rw [h]

/-- Firing an unscheduled completion is a no-op. -/
lemma runComplete_none (s : EngineState) (h : s.pendingComplete = none) :
    runComplete s = s := by
  unfold runComplete
  rw [h]

/-- Characterization of a scheduled completion firing. -/
lemma runComplete_some (s : EngineState) (it : QItem)
    (h : s.pendingComplete = some it) :
    runComplete s =
      { s with
        digits := completeFilter it s.digits
        isAnimating := false
        pendingComplete := none
        trace := s.trace ++
          [Ev.animEnd it.value, Ev.resize (widthOf it.value), Ev.callback] } := by
  unfold runComplete
  rw [h]

/-- Draining while a transition is in flight is a no-op. -/
lemma processAnimationQueue_of_animating (s : EngineState)
    (h : s.isAnimating = true) : processAnimationQueue s = s := by
  unfold processAnimationQueue
  rw [h]
  simp

/-- Draining an empty queue is a no-op. -/
lemma processAnimationQueue_of_nil (s : EngineState) (h : s.queue = []) :
    processAnimationQueue s = s := by
  unfold processAnimationQueue
  rw [h]
  split <;> rfl

/-- Defensive drain: the head item is popped but no transition starts
when no visible digit exists. -/
lemma processAnimationQueue_no_visible (s : EngineState) (it : QItem)
    (rest : List QItem) (ha : s.isAnimating = false) (hq : s.queue = it :: rest)
    (hv : findVisible s.digits = none) :
    processAnimationQueue s = { s with queue := rest } := by
  unfold processAnimationQueue
  rw [ha, hq, hv]
  simp

/-- Redundant drain: the head item is popped and silently discarded when
its target equals the visible value. -/
lemma processAnimationQueue_skip (s : EngineState) (it : QItem)
    (rest : List QItem) (d : DigitVisual) (ha : s.isAnimating = false)
    (hq : s.queue = it :: rest) (hv : findVisible s.digits = some d)
    (he : it.value = d.value) :
    processAnimationQueue s = { s with queue := rest } := by
  unfold processAnimationQueue
  rw [ha, hq, hv]
  simp [he]

/-- Effective drain: the head item is popped and the transition starts. -/
lemma processAnimationQueue_start (s : EngineState) (it : QItem)
    (rest : List QItem) (d : DigitVisual) (ha : s.isAnimating = false)
    (hq : s.queue = it :: rest) (hv : findVisible s.digits = some d)
    (hne : it.value ≠ d.value) :
    processAnimationQueue s =
      { s with
        digits := startAnimationDigits it s.digits
        isAnimating := true
        queue := rest
        pendingPromote := some it
        pendingComplete := some it
        trace := s.trace ++ [Ev.animStart it.value it.direction] } := by
  unfold processAnimationQueue
  rw [ha, hq, hv]
  simp [hne]

/-- The invariant is preserved when the scheduled promotion fires. -/
lemma inv_promote (s : EngineState) (h : Inv s) : Inv (runPromote s) := by
  obtain ⟨hq, hph⟩ := h
  cases hpp : s.pendingPromote with
  | none => rw [runPromote_none s hpp]; exact ⟨hq, hph⟩
  | some it =>
    rw [runPromote_some s it hpp]
    refine ⟨by simpa using hq, ?_⟩
    rcases hph with h0 | h1 | h2 | h3
    · obtain ⟨_, hp, _⟩ := h0
      rw [hpp] at hp
      exact absurd hp (by simp)
    · obtain ⟨it1, old, ha, hp, hc, hd, hov, hoc, hne⟩ := h1
      rw [hpp] at hp
      have hit : it1 = it := by injection hp with h1; exact h1.symm
      subst hit
      refine Or.inr (Or.inr (Or.inl ?_))
      refine ⟨it1, old, by simpa using ha, by simp, by simpa using hc, ?_, hov, hne⟩
      show promoteDigits it1 s.digits = [old, promotedDigit it1]
      rw [hd]
      exact promoteDigits_pair it1 old hne
    · obtain ⟨it1, old, ha, hp, hc, hd, hov, hne⟩ := h2
      rw [hpp] at hp
      exact absurd hp (by simp)
    · obtain ⟨it1, ha, hp, hc, hd⟩ := h3
      rw [hpp] at hp
      have hit : it1 = it := by injection hp with h1; exact h1.symm
      subst hit
      refine Or.inl ?_
      refine ⟨by simpa using ha, by simp, by simpa using hc, promotedDigit it1, ?_, rfl⟩
      show promoteDigits it1 s.digits = [promotedDigit it1]
      rw [hd]
      exact promoteDigits_single it1

/-- The invariant is preserved when the scheduled completion fires. -/
lemma inv_complete (s : EngineState) (h : Inv s) : Inv (runComplete s) := by
  obtain ⟨hq, hph⟩ := h
  cases hpc : s.pendingComplete with
  | none => rw [runComplete_none s hpc]; exact ⟨hq, hph⟩
  | some it =>
    rw [runComplete_some s it hpc]
    refine ⟨by simpa using hq, ?_⟩
    rcases hph with h0 | h1 | h2 | h3
    · obtain ⟨_, _, hc, _⟩ := h0
      rw [hpc] at hc
      exact absurd hc (by simp)
    · obtain ⟨it1, old, ha, hp, hc, hd, hov, hoc, hne⟩ := h1
      rw [hpc] at hc
      have hit : it1 = it := by injection hc with h1; exact h1.symm
      subst hit
      refine Or.inr (Or.inr (Or.inr ?_))
      refine ⟨it1, by simp, by simpa using hp, by simp, ?_⟩
      show completeFilter it1 s.digits = [enteringDigit it1]
      rw [hd]
      exact completeFilter_pair_entering it1 old hov hne
    · obtain ⟨it1, old, ha, hp, hc, hd, hov, hne⟩ := h2
      rw [hpc] at hc
      have hit : it1 = it := by injection hc with h1; exact h1.symm
      subst hit
      refine Or.inl ?_
      refine ⟨by simp, by simpa using hp, by simp, promotedDigit it1, ?_, rfl⟩
      show completeFilter it1 s.digits = [promotedDigit it1]
      rw [hd]
      exact completeFilter_pair_promoted it1 old hov hne
    · obtain ⟨it1, ha, hp, hc, hd⟩ := h3
      rw [hpc] at hc
      exact absurd hc (by simp)

/-- The invariant is preserved by draining the queue. -/
lemma inv_drain (s : EngineState) (h : Inv s) :
    Inv (processAnimationQueue s) := by
  obtain ⟨hq, hph⟩ := h
  cases ha : s.isAnimating with
  | true => rw [processAnimationQueue_of_animating s ha]; exact ⟨hq, hph⟩
  | false =>
    cases hqq : s.queue with
    | nil => rw [processAnimationQueue_of_nil s hqq]; exact ⟨hq, hph⟩
    | cons nextItem remainingItems =>
      have hrem : remainingItems.length ≤ 1 := by
        rw [hqq] at hq
        simp only [List.length_cons] at hq
        omega
      cases hfv : findVisible s.digits with
      | none =>
        rw [processAnimationQueue_no_visible s nextItem remainingItems ha hqq hfv]
        exact ⟨hrem, phaseDisj_of_fields s _ rfl rfl rfl rfl hph⟩
      | some currentVisible =>
        by_cases hvv : nextItem.value = currentVisible.value
        · rw [processAnimationQueue_skip s nextItem remainingItems currentVisible
            ha hqq hfv hvv]
          exact ⟨hrem, phaseDisj_of_fields s _ rfl rfl rfl rfl hph⟩
        · rw [processAnimationQueue_start s nextItem remainingItems currentVisible
            ha hqq hfv hvv]
          refine ⟨by simpa using hrem, ?_⟩
          rcases hph with h0 | h1 | h2 | h3
          · obtain ⟨ha0, hp, hc, d, hd, hvis⟩ := h0
            have hcv : currentVisible = d := by
              rw [hd, findVisible_single_true d hvis] at hfv
              injection hfv with h1
              exact h1.symm
            refine Or.inr (Or.inl ?_)
            refine ⟨nextItem,
              { d with
                isVisible := false
                className := "counter-number " ++ slideOutClassOf nextItem.direction },
              by simp, by simp, by simp, ?_, by simp, by simp, ?_⟩
            · show startAnimationDigits nextItem s.digits = _
              rw [hd]
              simp [startAnimationDigits]
            · show d.value ≠ nextItem.value
              rw [hcv] at hvv
              exact fun hcontra => hvv hcontra.symm
          · obtain ⟨it1, old, ha1, _⟩ := h1
            rw [ha1] at ha
            exact absurd ha (by simp)
          · obtain ⟨it1, old, ha1, _⟩ := h2
            rw [ha1] at ha
            exact absurd ha (by simp)
          · obtain ⟨it1, ha1, hp, hc, hd⟩ := h3
            rw [hd, findVisible_entering it1] at hfv
            exact absurd hfv (by simp)

/-- Every reachable state satisfies the inductive invariant. -/
lemma reachable_inv (v : Int) (s : EngineState) (h : Reachable v s) : Inv s := by
  induction h with
  | init => exact inv_init v
  | enqueue w _ ih => exact inv_enqueue w _ ih
  | drain _ ih => exact inv_drain _ ih
  | promote _ ih => exact inv_promote _ ih
  | complete _ ih => exact inv_complete _ ih

/-- A digit carrying the slide-out class of some direction is exiting. -/
lemma isExiting_of_slideOut (dv : DigitVisual) (dir : Dir)
    (h : dv.className = "counter-number " ++ slideOutClassOf dir) :
    isExiting dv = true := by
  unfold isExiting
  rw [h]
  cases dir <;> decide

/-- A digit carrying the slide-out class of some direction is not entering. -/
lemma isEntering_of_slideOut (dv : DigitVisual) (dir : Dir)
    (h : dv.className = "counter-number " ++ slideOutClassOf dir) :
    isEntering dv = false := by
  unfold isEntering
  rw [h]
  cases dir <;> decide

/-- The freshly appended entering digit is not exiting. -/
lemma isExiting_enteringDigit (it : QItem) :
    isExiting (enteringDigit it) = false := by
  cases it with
  | mk v dir =>
    show ("counter-number " ++ slideInClassOf dir == "counter-number slide-out-up" ||
      "counter-number " ++ slideInClassOf dir == "counter-number slide-out-down") = false
    cases dir <;> decide

/-- The freshly appended entering digit is entering. -/
lemma isEntering_enteringDigit (it : QItem) :
    isEntering (enteringDigit it) = true := by
  cases it with
  | mk v dir =>
    show ("counter-number " ++ slideInClassOf dir == "counter-number slide-in-from-down" ||
      "counter-number " ++ slideInClassOf dir == "counter-number slide-in-from-up") = true
    cases dir <;> decide

/-- C1: For every integer value, `widthOf(value)` equals the decimal digit
count of the absolute value (`Nat.log 10 |value| + 1`) plus one when the
value is negative; `widthOf` is a pure total function, and in particular
`widthOf 9 = 1`, `widthOf 10 = 2`, `widthOf (-9) = 2`, `widthOf (-10) = 3`. -/
theorem widthOf_correct :
    (∀ v : Int, widthOf v = (Nat.log 10 v.natAbs + 1) + (if v < 0 then 1 else 0)) ∧
    widthOf 9 = 1 ∧ widthOf 10 = 2 ∧ widthOf (-9) = 2 ∧ widthOf (-10) = 3 := by
  refine ⟨fun v => ?_, by decide, by decide, by decide, by decide⟩
  rw [widthOf, digitCount_eq_log]

/-- C2: In every reachable state at most two DigitVisuals exist at once; at
every settled instant (no transition in flight) exactly one DigitVisual is
marked visible; while a transition is in flight and the promotion has not
fired yet, exactly one DigitVisual is exiting and one is entering, and
none is visible. -/
theorem reachable_visuals_invariant (v : Int) (s : EngineState)
    (h : Reachable v s) :
    s.digits.length ≤ 2 ∧
    (Settled s → countVisible s.digits = 1) ∧
    (∀ it : QItem, s.isAnimating = true → s.pendingPromote = some it →
      (s.digits.filter isExiting).length = 1 ∧
      (s.digits.filter isEntering).length = 1 ∧
      countVisible s.digits = 0) := by
  obtain ⟨hq, hph⟩ := reachable_inv v s h
  rcases hph with h0 | h1 | h2 | h3
  · obtain ⟨ha, hp, hc, d, hd, hvis⟩ := h0
    refine ⟨by rw [hd]; simp, ?_, ?_⟩
    · intro _
      rw [hd]
      simp [countVisible, hvis]
    · intro it hA hP
      rw [ha] at hA
      exact absurd hA (by simp)
  · obtain ⟨it1, old, ha, hp, hc, hd, hov, hoc, hne⟩ := h1
    refine ⟨by rw [hd]; simp, ?_, ?_⟩
    · intro hs
      obtain ⟨hsa, _, _⟩ := hs
      rw [ha] at hsa
      exact absurd hsa (by simp)
    · intro it hA hP
      have hx1 : isExiting old = true := isExiting_of_slideOut old it1.direction hoc
      have hx2 : isExiting (enteringDigit it1) = false := isExiting_enteringDigit it1
      have hy1 : isEntering old = false := isEntering_of_slideOut old it1.direction hoc
      have hy2 : isEntering (enteringDigit it1) = true := isEntering_enteringDigit it1
      have hv2 : (enteringDigit it1).isVisible = false := rfl
      rw [hd]
      refine ⟨?_, ?_, ?_⟩
      · simp [List.filter, hx1, hx2]
      · simp [List.filter, hy1, hy2]
      · simp [countVisible, hov, hv2]
  · obtain ⟨it1, old, ha, hp, hc, hd, hov, hne⟩ := h2
    refine ⟨by rw [hd]; simp, ?_, ?_⟩
    · intro hs
      obtain ⟨hsa, _, _⟩ := hs
      rw [ha] at hsa
      exact absurd hsa (by simp)
    · intro it hA hP
      rw [hp] at hP
      exact absurd hP (by simp)
  · obtain ⟨it1, ha, hp, hc, hd⟩ := h3
    refine ⟨by rw [hd]; simp, ?_, ?_⟩
    · intro hs
      obtain ⟨_, hsp, _⟩ := hs
      rw [hp] at hsp
      exact absurd hsp (by simp)
    · intro it hA hP
      rw [ha] at hA
      exact absurd hA (by simp)

/-- Witness for C2 at the freshly mounted widget showing the value 5. -/
theorem reachable_visuals_invariant_witness :
    (initState 5).digits.length ≤ 2 ∧
    (Settled (initState 5) → countVisible (initState 5).digits = 1) ∧
    (∀ it : QItem, (initState 5).isAnimating = true →
      (initState 5).pendingPromote = some it →
      ((initState 5).digits.filter isExiting).length = 1 ∧
      ((initState 5).digits.filter isEntering).length = 1 ∧
      countVisible (initState 5).digits = 0) :=
  reachable_visuals_invariant 5 (initState 5) Reachable.init

/-- C3: Rapidly enqueuing 5, 6, 7 while idle and visible at 5 leaves a
single coalesced queue item with target 7 and direction up; running the
drain, promotion and completion yields exactly one transition directly
from 5 to 7 (a single transition-start event, direction up), the
intermediate value 6 is never present among the rendered digits of any
state of the run, and in every reachable state the queue holds at most
one pending update. -/
theorem rapid_enqueue_collapses :
    ((queueDigitChange 7 (queueDigitChange 6 (queueDigitChange 5
        (initState 5)))).queue = [⟨7, Dir.up⟩] ∧
      (runComplete (runPromote (processAnimationQueue (queueDigitChange 7
        (queueDigitChange 6 (queueDigitChange 5 (initState 5))))))).trace =
        [Ev.animStart 7 Dir.up, Ev.animEnd 7, Ev.resize 1, Ev.callback] ∧
      Settled (runComplete (runPromote (processAnimationQueue
        (queueDigitChange 7 (queueDigitChange 6 (queueDigitChange 5
          (initState 5))))))) ∧
      (runComplete (runPromote (processAnimationQueue (queueDigitChange 7
        (queueDigitChange 6 (queueDigitChange 5 (initState 5))))))).digits =
        [⟨7, some Dir.up, true, styleVisible⟩] ∧
      (∀ d ∈ (queueDigitChange 7 (queueDigitChange 6 (queueDigitChange 5
          (initState 5)))).digits ++
        (processAnimationQueue (queueDigitChange 7 (queueDigitChange 6
          (queueDigitChange 5 (initState 5))))).digits ++
        (runPromote (processAnimationQueue (queueDigitChange 7
          (queueDigitChange 6 (queueDigitChange 5 (initState 5)))))).digits ++
        (runComplete (runPromote (processAnimationQueue (queueDigitChange 7
          (queueDigitChange 6 (queueDigitChange 5
            (initState 5))))))).digits, d.value ≠ 6)) ∧
    (∀ (w : Int) (t : EngineState), Reachable w t → t.queue.length ≤ 1) :=
  ⟨by decide, fun w t ht => (reachable_inv w t ht).1⟩

/-- Witness for C3: the queue bound applied at the initial state. -/
theorem rapid_enqueue_collapses_witness : (initState 5).queue.length ≤ 1 :=
  rapid_enqueue_collapses.2 5 (initState 5) Reachable.init

/-- C4 counterexample: with visible value 5 and the queue holding the
pending item with target 7 and direction up, enqueuing 7 leaves the held
item unchanged (direction up), whereas the claim as stated requires it to
be replaced by an item whose direction is recomputed against the replaced
target (7 > 7 fails, so down). -/
theorem enqueue_replace_counterexample :
    (queueDigitChange 7
      ⟨[⟨5, none, true, styleVisible⟩], false, [⟨7, Dir.up⟩],
        none, none, []⟩).queue = [⟨7, Dir.up⟩] ∧
    ¬ ((queueDigitChange 7
      ⟨[⟨5, none, true, styleVisible⟩], false, [⟨7, Dir.up⟩],
        none, none, []⟩).queue = [⟨7, Dir.down⟩]) := by
  decide

/-- C4 amended: provided the new value differs from the currently visible
value, enqueuing with a non-empty queue whose held item's target also
differs replaces the held item with the new target and a direction
computed against the replaced item's target (up if greater, down
otherwise), not against the visible value; if the new value equals the
held target the queue is left unchanged; with an empty queue the item is
inserted with the direction computed against the visible value. -/
theorem enqueue_direction_policy (s : EngineState) (d : DigitVisual) (v : Int)
    (hv : findVisible s.digits = some d) (hne : v ≠ d.value) :
    (s.queue = [] → (queueDigitChange v s).queue = [⟨v, dirFor v d.value⟩]) ∧
    (∀ it : QItem, s.queue = [it] → v ≠ it.value →
      (queueDigitChange v s).queue = [⟨v, dirFor v it.value⟩]) ∧
    (∀ it : QItem, s.queue = [it] → v = it.value →
      (queueDigitChange v s).queue = [it]) := by
  have hqc : queueDigitChange v s =
      { s with queue := pushQueue v (dirFor v d.value) s.queue } := by
    unfold queueDigitChange
    rw [hv]
    simp [hne]
  refine ⟨fun hq => ?_, fun it hq hvne => ?_, fun it hq hveq => ?_⟩
  · rw [hqc]
    show pushQueue v (dirFor v d.value) s.queue = _
    rw [hq]
    rfl
  · rw [hqc]
    show pushQueue v (dirFor v d.value) s.queue = _
    rw [hq]
    simp [pushQueue, hvne]
  · rw [hqc]
    show pushQueue v (dirFor v d.value) s.queue = _
    rw [hq]
    simp [pushQueue, hveq]

/-- Witness for C4 (amended): visible 5, pending target 6, enqueue 7. -/
theorem enqueue_direction_policy_witness :
    (queueDigitChange 7
      ⟨[⟨5, none, true, styleVisible⟩], false, [⟨6, Dir.up⟩],
        none, none, []⟩).queue = [⟨7, dirFor 7 6⟩] :=
  (enqueue_direction_policy
    ⟨[⟨5, none, true, styleVisible⟩], false, [⟨6, Dir.up⟩], none, none, []⟩
    ⟨5, none, true, styleVisible⟩ 7 (by decide) (by decide)).2.1
    ⟨6, Dir.up⟩ rfl (by decide)

/-- Enqueuing the currently visible value leaves the state unchanged. -/
lemma queueDigitChange_visible_self (s : EngineState) (d : DigitVisual)
    (hv : findVisible s.digits = some d) :
    queueDigitChange d.value s = s := by
  unfold queueDigitChange
  rw [hv]
  simp

/-- C5: Enqueuing a value equal to the currently visible value is a
complete no-op (the state, hence also the event trace and any pending
transition, is unchanged and no completion is ever attributable to it);
and a drained pending item whose target equals the visible value is
silently discarded, the only effect being its removal from the queue. -/
theorem enqueue_equal_noop (s : EngineState) (d : DigitVisual)
    (hv : findVisible s.digits = some d) :
    queueDigitChange d.value s = s ∧
    (∀ (it : QItem) (rest : List QItem), s.isAnimating = false →
      s.queue = it :: rest → it.value = d.value →
      processAnimationQueue s = { s with queue := rest }) := by
  refine ⟨queueDigitChange_visible_self s d hv, ?_⟩
  intro it rest ha hq he
  exact processAnimationQueue_skip s it rest d ha hq hv he

/-- Witness for C5: visible 5, enqueue 5; then drain a pending 5. -/
theorem enqueue_equal_noop_witness :
    queueDigitChange 5
      ⟨[⟨5, none, true, styleVisible⟩], false, [⟨5, Dir.up⟩],
        none, none, []⟩ =
      ⟨[⟨5, none, true, styleVisible⟩], false, [⟨5, Dir.up⟩],
        none, none, []⟩ ∧
    processAnimationQueue
      ⟨[⟨5, none, true, styleVisible⟩], false, [⟨5, Dir.up⟩],
        none, none, []⟩ =
      ⟨[⟨5, none, true, styleVisible⟩], false, [],
        none, none, []⟩ :=
  ⟨(enqueue_equal_noop
      ⟨[⟨5, none, true, styleVisible⟩], false, [⟨5, Dir.up⟩], none, none, []⟩
      ⟨5, none, true, styleVisible⟩ (by decide)).1,
    (enqueue_equal_noop
      ⟨[⟨5, none, true, styleVisible⟩], false, [⟨5, Dir.up⟩], none, none, []⟩
      ⟨5, none, true, styleVisible⟩ (by decide)).2 ⟨5, Dir.up⟩ [] rfl rfl rfl⟩

/-- With animation enabled, a value change is the width-before policy
followed by enqueuing. -/
lemma valueChange_animated (a b : Int) (s : EngineState) (hab : a ≠ b) :
    valueChange false a b s =
      queueDigitChange b (updateContainerWidthBeforeDigitAnimation a b s) := by
  unfold valueChange
  simp [hab]

/-- The width-before policy only appends to the trace. -/
lemma ucwb_fields (a b : Int) (s : EngineState) :
    (updateContainerWidthBeforeDigitAnimation a b s).digits = s.digits ∧
    (updateContainerWidthBeforeDigitAnimation a b s).isAnimating = s.isAnimating ∧
    (updateContainerWidthBeforeDigitAnimation a b s).queue = s.queue ∧
    (updateContainerWidthBeforeDigitAnimation a b s).trace =
      s.trace ++ (if intStrLen a ≤ intStrLen b then [Ev.resize (widthOf b)] else []) := by
  unfold updateContainerWidthBeforeDigitAnimation
  by_cases hw : intStrLen a ≤ intStrLen b
  · simp [hw]
  · simp [hw]

/-- Enqueuing a value different from the visible one updates the queue. -/
lemma queueDigitChange_effective (v : Int) (s : EngineState) (d : DigitVisual)
    (hv : findVisible s.digits = some d) (hne : v ≠ d.value) :
    queueDigitChange v s =
      { s with queue := pushQueue v (dirFor v d.value) s.queue } := by
  unfold queueDigitChange
  rw [hv]
  simp [hne]

/-- The event trace of one full animated transition from a settled state:
the width-grows-or-stays case resizes before the transition-start event,
the width-shrinks case resizes only after the transition-end event. -/
lemma transitionRun_trace (s : EngineState) (d : DigitVisual) (a b : Int)
    (hd : s.digits = [d]) (hvis : d.isVisible = true) (hval : d.value = a)
    (ha : s.isAnimating = false) (hq : s.queue = []) (hab : a ≠ b) :
    (transitionRun a b s).trace =
      s.trace ++
        (if intStrLen a ≤ intStrLen b then [Ev.resize (widthOf b)] else []) ++
        [Ev.animStart b (dirFor b a), Ev.animEnd b,
          Ev.resize (widthOf b), Ev.callback] := by
  have hfv : findVisible s.digits = some d := by
    rw [hd]
    exact findVisible_single_true d hvis
  have hneb : b ≠ d.value := by
    rw [hval]
    exact fun hcontra => hab hcontra.symm
  obtain ⟨hud, hua, huq, hut⟩ := ucwb_fields a b s
  have hufv : findVisible (updateContainerWidthBeforeDigitAnimation a b s).digits
      = some d := by rw [hud]; exact hfv
  have h1 : valueChange false a b s =
      { updateContainerWidthBeforeDigitAnimation a b s with
        queue := pushQueue b (dirFor b d.value)
          (updateContainerWidthBeforeDigitAnimation a b s).queue } := by
    rw [valueChange_animated a b s hab]
    exact queueDigitChange_effective b _ d hufv hneb
  have h1q : (valueChange false a b s).queue = [⟨b, dirFor b a⟩] := by
    rw [h1]
    show pushQueue b (dirFor b d.value)
      (updateContainerWidthBeforeDigitAnimation a b s).queue = _
    rw [huq, hq, hval]
    rfl
  have h1d : (valueChange false a b s).digits = s.digits := by
    rw [h1]
    show (updateContainerWidthBeforeDigitAnimation a b s).digits = s.digits
    exact hud
  have h1a : (valueChange false a b s).isAnimating = false := by
    rw [h1]
    show (updateContainerWidthBeforeDigitAnimation a b s).isAnimating = false
    rw [hua, ha]
  have h1t : (valueChange false a b s).trace =
      s.trace ++ (if intStrLen a ≤ intStrLen b then [Ev.resize (widthOf b)] else []) := by
    rw [h1]
    show (updateContainerWidthBeforeDigitAnimation a b s).trace = _
    exact hut
  have h2 := processAnimationQueue_start (valueChange false a b s)
    ⟨b, dirFor b a⟩ [] d h1a h1q (by rw [h1d]; exact hfv)
    (by exact hneb)
  have h3 := runPromote_some (processAnimationQueue (valueChange false a b s))
    ⟨b, dirFor b a⟩ (by rw [h2])
  have h4 : (runPromote (processAnimationQueue
      (valueChange false a b s))).pendingComplete = some ⟨b, dirFor b a⟩ := by
    rw [h3]
    show (processAnimationQueue (valueChange false a b s)).pendingComplete = _
    rw [h2]
  have h5 := runComplete_some _ ⟨b, dirFor b a⟩ h4
  show (runComplete (runPromote (processAnimationQueue
    (valueChange false a b s)))).trace = _
  rw [h5]
  show (runPromote (processAnimationQueue (valueChange false a b s))).trace ++ _ = _
  rw [h3]
  show (processAnimationQueue (valueChange false a b s)).trace ++ _ = _
  rw [h2]
  show ((valueChange false a b s).trace ++ _) ++ _ = _
  rw [h1t]
  simp [List.append_assoc]

/-- C6: For every transition from a settled state, when the target's width
is greater than or equal to the current width the container resize event
precedes the transition-start event, and when the target's width is
strictly smaller the only resize event comes after the transition-end
event; in particular 9 to 10 resizes before the transition starts and
10 to 9 resizes only after completion. -/
theorem resize_ordering (s : EngineState) (d : DigitVisual) (a b : Int)
    (hd : s.digits = [d]) (hvis : d.isVisible = true) (hval : d.value = a)
    (ha : s.isAnimating = false) (hq : s.queue = []) (hab : a ≠ b) :
    (widthOf a ≤ widthOf b →
      (transitionRun a b s).trace =
        s.trace ++ [Ev.resize (widthOf b), Ev.animStart b (dirFor b a),
          Ev.animEnd b, Ev.resize (widthOf b), Ev.callback]) ∧
    (widthOf b < widthOf a →
      (transitionRun a b s).trace =
        s.trace ++ [Ev.animStart b (dirFor b a), Ev.animEnd b,
          Ev.resize (widthOf b), Ev.callback]) ∧
    (transitionRun 9 10 (initState 9)).trace =
      [Ev.resize 2, Ev.animStart 10 Dir.up, Ev.animEnd 10,
        Ev.resize 2, Ev.callback] ∧
    (transitionRun 10 9 (initState 10)).trace =
      [Ev.animStart 9 Dir.down, Ev.animEnd 9, Ev.resize 1, Ev.callback] := by
  have h := transitionRun_trace s d a b hd hvis hval ha hq hab
  rw [intStrLen_eq_widthOf, intStrLen_eq_widthOf] at h
  refine ⟨fun hw => ?_, fun hw => ?_, by decide, by decide⟩
  · rw [h, if_pos hw]
    simp [List.append_assoc]
  · rw [h, if_neg (by omega)]
    simp

/-- Witness for C6: the transition from 9 to 10 at the mounted widget. -/
theorem resize_ordering_witness :
    (widthOf 9 ≤ widthOf 10 →
      (transitionRun 9 10 (initState 9)).trace =
        (initState 9).trace ++ [Ev.resize (widthOf 10),
          Ev.animStart 10 (dirFor 10 9), Ev.animEnd 10,
          Ev.resize (widthOf 10), Ev.callback]) ∧
    (widthOf 10 < widthOf 9 →
      (transitionRun 9 10 (initState 9)).trace =
        (initState 9).trace ++ [Ev.animStart 10 (dirFor 10 9), Ev.animEnd 10,
          Ev.resize (widthOf 10), Ev.callback]) ∧
    (transitionRun 9 10 (initState 9)).trace =
      [Ev.resize 2, Ev.animStart 10 Dir.up, Ev.animEnd 10,
        Ev.resize 2, Ev.callback] ∧
    (transitionRun 10 9 (initState 10)).trace =
      [Ev.animStart 9 Dir.down, Ev.animEnd 9, Ev.resize 1, Ev.callback] :=
  resize_ordering (initState 9) ⟨9, none, true, styleVisible⟩ 9 10
    rfl rfl rfl rfl rfl (by decide)

/-- C7: With animation disabled, a value change bypasses the queue and
engine entirely: the rendered digits are replaced synchronously by the
single visible digit for the new value, the queue, the `isAnimating` flag
and the scheduled callbacks are untouched, and the completion
notification is emitted exactly once for the change. -/
theorem disable_bypass (s : EngineState) (prevValue v : Int)
    (hne : prevValue ≠ v) :
    valueChange true prevValue v s =
      { s with
        digits := [⟨v, none, true, styleVisible⟩]
        trace := (s.trace ++
          (if intStrLen prevValue ≤ intStrLen v
            then [Ev.resize (widthOf v)] else [])) ++
          [Ev.resize (widthOf v), Ev.callback] } ∧
    (valueChange true prevValue v s).queue = s.queue ∧
    (valueChange true prevValue v s).isAnimating = s.isAnimating ∧
    (valueChange true prevValue v s).pendingPromote = s.pendingPromote ∧
    (valueChange true prevValue v s).pendingComplete = s.pendingComplete ∧
    (valueChange true prevValue v s).trace.count Ev.callback =
      s.trace.count Ev.callback + 1 := by
  have h : valueChange true prevValue v s =
      { s with
        digits := [⟨v, none, true, styleVisible⟩]
        trace := (s.trace ++
          (if intStrLen prevValue ≤ intStrLen v
            then [Ev.resize (widthOf v)] else [])) ++
          [Ev.resize (widthOf v), Ev.callback] } := by
    unfold valueChange updateContainerWidthBeforeDigitAnimation
    by_cases hw : intStrLen prevValue ≤ intStrLen v
    · simp [hw, hne]
    · simp [hw, hne]
  refine ⟨h, by rw [h], by rw [h], by rw [h], by rw [h], ?_⟩
  rw [h]
  show ((s.trace ++ _) ++ _).count Ev.callback = _
  by_cases hw : intStrLen prevValue ≤ intStrLen v
  · rw [if_pos hw]
    simp [List.count_append]
  · rw [if_neg hw]
    simp [List.count_append]

/-- Witness for C7: the value changes from 3 to 9 at the mounted widget. -/
theorem disable_bypass_witness :
    valueChange true 3 9 (initState 3) =
      { initState 3 with
        digits := [⟨9, none, true, styleVisible⟩]
        trace := ((initState 3).trace ++
          (if intStrLen 3 ≤ intStrLen 9
            then [Ev.resize (widthOf 9)] else [])) ++
          [Ev.resize (widthOf 9), Ev.callback] } ∧
    (valueChange true 3 9 (initState 3)).queue = (initState 3).queue ∧
    (valueChange true 3 9 (initState 3)).isAnimating =
      (initState 3).isAnimating ∧
    (valueChange true 3 9 (initState 3)).pendingPromote =
      (initState 3).pendingPromote ∧
    (valueChange true 3 9 (initState 3)).pendingComplete =
      (initState 3).pendingComplete ∧
    (valueChange true 3 9 (initState 3)).trace.count Ev.callback =
      (initState 3).trace.count Ev.callback + 1 :=
  disable_bypass (initState 3) 3 9 (by decide)

/-- C8: When the engine drains the queue but the expected visible digit is
absent, the attempt aborts with only the pending item popped: the digits
and trace are untouched (no transition starts, nothing is thrown — the
drain is a total function), the engine stays idle, and when further items
remain the drain guard holds again so the queue is re-attempted. -/
theorem defensive_drain (s : EngineState) (it : QItem) (rest : List QItem)
    (ha : s.isAnimating = false) (hq : s.queue = it :: rest)
    (hv : findVisible s.digits = none) :
    processAnimationQueue s = { s with queue := rest } ∧
    (processAnimationQueue s).isAnimating = false ∧
    (processAnimationQueue s).digits = s.digits ∧
    (processAnimationQueue s).trace = s.trace ∧
    (rest ≠ [] → (processAnimationQueue s).isAnimating = false ∧
      (processAnimationQueue s).queue ≠ []) := by
  have h := processAnimationQueue_no_visible s it rest ha hq hv
  refine ⟨h, by rw [h]; exact ha, by rw [h], by rw [h], fun hr => ⟨by rw [h]; exact ha, by rw [h]; exact hr⟩⟩

/-- Witness for C8: a desynchronized state with no visible digit and two
queued items. -/
theorem defensive_drain_witness :
    processAnimationQueue
      ⟨[⟨5, some Dir.up, false, styleVisible⟩], false,
        [⟨6, Dir.up⟩, ⟨7, Dir.up⟩], none, none, []⟩ =
      { (⟨[⟨5, some Dir.up, false, styleVisible⟩], false,
          [⟨6, Dir.up⟩, ⟨7, Dir.up⟩], none, none, []⟩ : EngineState) with
        queue := [⟨7, Dir.up⟩] } ∧
    (processAnimationQueue
      ⟨[⟨5, some Dir.up, false, styleVisible⟩], false,
        [⟨6, Dir.up⟩, ⟨7, Dir.up⟩], none, none, []⟩).isAnimating = false ∧
    (processAnimationQueue
      ⟨[⟨5, some Dir.up, false, styleVisible⟩], false,
        [⟨6, Dir.up⟩, ⟨7, Dir.up⟩], none, none, []⟩).digits =
      (⟨[⟨5, some Dir.up, false, styleVisible⟩], false,
        [⟨6, Dir.up⟩, ⟨7, Dir.up⟩], none, none, []⟩ : EngineState).digits ∧
    (processAnimationQueue
      ⟨[⟨5, some Dir.up, false, styleVisible⟩], false,
        [⟨6, Dir.up⟩, ⟨7, Dir.up⟩], none, none, []⟩).trace =
      (⟨[⟨5, some Dir.up, false, styleVisible⟩], false,
        [⟨6, Dir.up⟩, ⟨7, Dir.up⟩], none, none, []⟩ : EngineState).trace ∧
    ([⟨7, Dir.up⟩] ≠ ([] : List QItem) →
      (processAnimationQueue
        ⟨[⟨5, some Dir.up, false, styleVisible⟩], false,
          [⟨6, Dir.up⟩, ⟨7, Dir.up⟩], none, none, []⟩).isAnimating = false ∧
      (processAnimationQueue
        ⟨[⟨5, some Dir.up, false, styleVisible⟩], false,
          [⟨6, Dir.up⟩, ⟨7, Dir.up⟩], none, none, []⟩).queue ≠ []) :=
  defensive_drain
    ⟨[⟨5, some Dir.up, false, styleVisible⟩], false,
      [⟨6, Dir.up⟩, ⟨7, Dir.up⟩], none, none, []⟩
    ⟨6, Dir.up⟩ [⟨7, Dir.up⟩] rfl rfl (by decide)

/-- C9: The completion cleanup (prune every digit that is neither visible
nor equal to the promoted target value) is idempotent: applying it a
second time for the same transition leaves the digit list unchanged, and
in particular never removes a then-visible DigitVisual. -/
theorem cleanup_idempotent :
    ∀ (it : QItem) (ds : List DigitVisual),
      completeFilter it (completeFilter it ds) = completeFilter it ds ∧
      (∀ d, d ∈ completeFilter it ds → d.isVisible = true →
        d ∈ completeFilter it (completeFilter it ds)) := by
  intro it ds
  have h : completeFilter it (completeFilter it ds) = completeFilter it ds := by
    unfold completeFilter
    rw [List.filter_filter]
    simp
  refine ⟨h, fun d hd _ => ?_⟩
  rw [h]
  exact hd

/-- Witness for C9: duplicate cleanup for target 7 keeps the visible 7. -/
theorem cleanup_idempotent_witness :
    completeFilter ⟨7, Dir.up⟩ (completeFilter ⟨7, Dir.up⟩
      [⟨5, none, false, styleVisible⟩, ⟨7, some Dir.up, true, styleVisible⟩]) =
      completeFilter ⟨7, Dir.up⟩
        [⟨5, none, false, styleVisible⟩, ⟨7, some Dir.up, true, styleVisible⟩] ∧
    (⟨7, some Dir.up, true, styleVisible⟩ : DigitVisual) ∈
      completeFilter ⟨7, Dir.up⟩ (completeFilter ⟨7, Dir.up⟩
        [⟨5, none, false, styleVisible⟩,
          ⟨7, some Dir.up, true, styleVisible⟩]) :=
  ⟨(cleanup_idempotent ⟨7, Dir.up⟩
      [⟨5, none, false, styleVisible⟩, ⟨7, some Dir.up, true, styleVisible⟩]).1,
    (cleanup_idempotent ⟨7, Dir.up⟩
      [⟨5, none, false, styleVisible⟩,
        ⟨7, some Dir.up, true, styleVisible⟩]).2
      ⟨7, some Dir.up, true, styleVisible⟩ (by decide) rfl⟩

/-- C10: With a pending update whose target differs from the visible value,
enqueuing the visible value itself returns before the queue is consulted:
the whole state, in particular the pending item with its previously
computed direction, is unchanged, and a subsequent idle drain still starts
the pending transition to that target. -/
theorem pending_survives_visible_enqueue (s : EngineState) (d : DigitVisual)
    (it : QItem) (hv : findVisible s.digits = some d) (hq : s.queue = [it])
    (hne : it.value ≠ d.value) :
    queueDigitChange d.value s = s ∧
    (s.isAnimating = false →
      processAnimationQueue s =
        { s with
          digits := startAnimationDigits it s.digits
          isAnimating := true
          queue := []
          pendingPromote := some it
          pendingComplete := some it
          trace := s.trace ++ [Ev.animStart it.value it.direction] }) := by
  refine ⟨queueDigitChange_visible_self s d hv, fun ha => ?_⟩
  exact processAnimationQueue_start s it [] d ha hq hv hne

/-- Witness for C10: visible 5 with pending target 7, enqueue 5. -/
theorem pending_survives_visible_enqueue_witness :
    queueDigitChange 5
      ⟨[⟨5, none, true, styleVisible⟩], false, [⟨7, Dir.up⟩],
        none, none, []⟩ =
      ⟨[⟨5, none, true, styleVisible⟩], false, [⟨7, Dir.up⟩],
        none, none, []⟩ ∧
    processAnimationQueue
      ⟨[⟨5, none, true, styleVisible⟩], false, [⟨7, Dir.up⟩],
        none, none, []⟩ =
      { (⟨[⟨5, none, true, styleVisible⟩], false, [⟨7, Dir.up⟩],
          none, none, []⟩ : EngineState) with
        digits := startAnimationDigits ⟨7, Dir.up⟩
          [⟨5, none, true, styleVisible⟩]
        isAnimating := true
        queue := []
        pendingPromote := some ⟨7, Dir.up⟩
        pendingComplete := some ⟨7, Dir.up⟩
        trace := [Ev.animStart 7 Dir.up] } :=
  ⟨(pending_survives_visible_enqueue
      ⟨[⟨5, none, true, styleVisible⟩], false, [⟨7, Dir.up⟩], none, none, []⟩
      ⟨5, none, true, styleVisible⟩ ⟨7, Dir.up⟩ (by decide) rfl
      (by decide)).1,
    (pending_survives_visible_enqueue
      ⟨[⟨5, none, true, styleVisible⟩], false, [⟨7, Dir.up⟩], none, none, []⟩
      ⟨5, none, true, styleVisible⟩ ⟨7, Dir.up⟩ (by decide) rfl
      (by decide)).2 rfl⟩

end AnimatedNumber
